import Mathlib

/-!
Verification of the checkpointed gene-tree batch pipeline
(`Anole_gene_trees_fetch.py`): a shallow embedding of the JSON payloads, the
tree flattener `process_gene_tree_data`, the checkpoint store
(`save_checkpoint` / `load_checkpoint`) and the batch engine
(`process_gene_batch` / `process_all_gene_trees`), together with proofs and
refutations of the specification's testable properties.
-/

namespace GeneTreeFetch

/-- JSON values as decoded by Python's `json` module (`response.json()`,
`json.load`). Numbers are modelled as integers (none of the verified
behaviour involves fractional values); object fields keep insertion order,
as Python dicts do, and are assumed key-unique as dicts are. -/
inductive Json where
  | null
  | bool (b : Bool)
  | num (n : Int)
  | str (s : String)
  | arr (items : List Json)
  | obj (fields : List (String × Json))

/-- Python `d[key]` / `d.get(key)` / `key in d` lookup on a decoded JSON
object: dict keys are unique, so the first match is the value. -/
def getField : List (String × Json) → String → Option Json
  | [], _ => none
  | (k, v) :: rest, key => if k = key then some v else getField rest key

/-- Python truthiness (`if x:`) of a decoded JSON value. -/
def Json.truthy : Json → Bool
  | .null => false
  | .bool b => b
  | .num n => n != 0
  | .str s => !s.isEmpty
  | .arr items => !items.isEmpty
  | .obj fields => !fields.isEmpty

theorem sizeOf_lt_of_getField {fields : List (String × Json)} {key : String}
    {v : Json} (h : getField fields key = some v) : sizeOf v < sizeOf fields := by
  induction fields with
  | nil => simp [getField] at h
  | cons kv rest ih =>
    obtain ⟨k, w⟩ := kv
    rw [getField] at h
    split at h
    · injection h with h
      subst h
      simp only [List.cons.sizeOf_spec, Prod.mk.sizeOf_spec]
      omega
    · have := ih h
      simp only [List.cons.sizeOf_spec]
      omega

theorem one_le_sizeOf (j : Json) : 1 ≤ sizeOf j := by
  cases j <;> simp

/-- One flattened record, as appended by `traverse_tree` in
`process_gene_tree_data` (lines 58-62). Field values are kept as decoded
JSON values; `Json.str "N/A"` is the missing-field sentinel. -/
structure FlatRow where
  gene_id : Json
  gene_name : Json
  species : Json

/-- `species_name = node['taxonomy'].get('scientific_name', 'N/A')` (line 55).
Defined when the taxonomy value is a dict; Python raises `AttributeError`
otherwise, a region excluded by `isGeneTree` and never exercised below. -/
def sciNameOf (tax : Json) : Json :=
  match tax with
  | .obj tfields => (getField tfields "scientific_name").getD (Json.str "N/A")
  | _ => Json.str "N/A"

/-- `gene_name = node.get('gene_member', \x7b\x7d).get('display_name', 'N/A')`
(line 57). Defined when the `gene_member` value is absent or a dict; Python
raises `AttributeError` on a present non-dict value, a region excluded by
`isGeneTree` and never exercised below. -/
def geneMemberNameOf (fields : List (String × Json)) : Json :=
  match getField fields "gene_member" with
  | some (.obj gfields) => (getField gfields "display_name").getD (Json.str "N/A")
  | some _ => Json.str "N/A"
  | none => Json.str "N/A"

/-- The record built for an extracted leaf (lines 54-62). -/
def leafRowOf (fields : List (String × Json)) (tax : Json) : FlatRow :=
  { gene_id := (getField fields "id").getD (Json.str "N/A"),
    gene_name := geneMemberNameOf fields,
    species := sciNameOf tax }

theorem sizeOf_children_lt {fields : List (String × Json)}
    {children : List Json}
    (hget : getField fields "children" = some (Json.arr children)) :
    sizeOf children < sizeOf (Json.obj fields) := by
  have h2 : sizeOf (Json.arr children) < sizeOf fields := sizeOf_lt_of_getField hget
  simp only [Json.arr.sizeOf_spec] at h2
  simp only [Json.obj.sizeOf_spec]
  omega

mutual

/-- Translation of `traverse_tree` (lines 49-62): recurse into a `children`
field when present, else extract a record only when a `taxonomy` field is
present. A non-list `children` value or a non-dict node is outside the
faithful region (Python's `in` membership test raises `TypeError` or
degenerates to substring search there); those branches return `[]` and are
excluded by `isGeneTree` in every theorem that could reach them. -/
def traverseTree (node : Json) : List FlatRow :=
  match node with
  | .obj fields =>
    match hg : getField fields "children" with
    | some (.arr children) => traverseChildren children
    | some _ => []
    | none =>
      match getField fields "taxonomy" with
      | some tax => [leafRowOf fields tax]
      | none => []
  | _ => []
termination_by sizeOf node
decreasing_by
  have := sizeOf_children_lt hg
  omega

/-- `for child in node['children']: traverse_tree(child)` (lines 51-52):
records accumulate in depth-first, left-to-right order. -/
def traverseChildren (children : List Json) : List FlatRow :=
  match children with
  | [] => []
  | c :: rest => traverseTree c ++ traverseChildren rest
termination_by sizeOf children
decreasing_by
  · simp only [List.cons.sizeOf_spec]; omega
  · simp only [List.cons.sizeOf_spec]; omega

end

mutual

/-- The region of JSON trees on which `traverseTree` models `traverse_tree`
exactly: every node is a dict; a `children` value, when present, is a list of
such nodes; on a leaf, a present `taxonomy` or `gene_member` value is a dict
(otherwise Python's subscript/`.get` raises). -/
def isGeneTree (node : Json) : Bool :=
  match node with
  | .obj fields =>
    match hg : getField fields "children" with
    | some (.arr children) => isGeneTreeList children
    | some _ => false
    | none =>
      (match getField fields "taxonomy" with
       | some (.obj _) => true
       | some _ => false
       | none => true) &&
      (match getField fields "gene_member" with
       | some (.obj _) => true
       | some _ => false
       | none => true)
  | _ => false
termination_by sizeOf node
decreasing_by
  have := sizeOf_children_lt hg
  omega

def isGeneTreeList (children : List Json) : Bool :=
  match children with
  | [] => true
  | c :: rest => isGeneTree c && isGeneTreeList rest
termination_by sizeOf children
decreasing_by
  · simp only [List.cons.sizeOf_spec]; omega
  · simp only [List.cons.sizeOf_spec]; omega

end

mutual

/-- Reference definition, following the specification's words: the depth-first
pre-order enumeration of the leaves of a tree, a leaf being any node without a
`children` field. (The `some _ => []` branch is outside `isGeneTree` and never
reached in the theorems.) -/
def refLeaves (node : Json) : List Json :=
  match node with
  | .obj fields =>
    match hg : getField fields "children" with
    | some (.arr children) => refLeavesList children
    | some _ => []
    | none => [node]
  | _ => [node]
termination_by sizeOf node
decreasing_by
  have := sizeOf_children_lt hg
  omega

def refLeavesList (children : List Json) : List Json :=
  match children with
  | [] => []
  | c :: rest => refLeaves c ++ refLeavesList rest
termination_by sizeOf children
decreasing_by
  · simp only [List.cons.sizeOf_spec]; omega
  · simp only [List.cons.sizeOf_spec]; omega

end

/-- Whether a leaf node carries a `taxonomy` field — the condition under which
`traverse_tree` extracts a record (line 54). -/
def leafHasTaxonomy : Json → Bool
  | .obj fields => (getField fields "taxonomy").isSome
  | _ => false

/-- Reference definition, following the specification's words: the flattened
record of a leaf, with the sentinel `"N/A"` substituted for each of the three
leaf fields (`id`, `gene_member.display_name`, `taxonomy.scientific_name`)
that is absent. -/
def refLeafRecord (leaf : Json) : FlatRow :=
  match leaf with
  | .obj fields =>
    { gene_id := (getField fields "id").getD (Json.str "N/A"),
      gene_name :=
        match getField fields "gene_member" with
        | some (.obj gfields) => (getField gfields "display_name").getD (Json.str "N/A")
        | _ => Json.str "N/A",
      species :=
        match getField fields "taxonomy" with
        | some (.obj tfields) => (getField tfields "scientific_name").getD (Json.str "N/A")
        | _ => Json.str "N/A" }
  | _ =>
    { gene_id := Json.str "N/A", gene_name := Json.str "N/A",
      species := Json.str "N/A" }

/-- `process_gene_tree_data` (lines 46-70): unwrap the `tree` envelope — a
non-empty list is unwrapped through its first element, a dict directly — then
traverse; anything else yields no records. (On a non-empty list whose first
element is not a dict, Python's `'tree' in gene_tree_info[0]` raises
`TypeError` or degenerates; that region is outside `envelopeShapeOK` and never
exercised by the theorems.) -/
def process_gene_tree_data (gene_tree_info : Json) : List FlatRow :=
  match gene_tree_info with
  | .arr (first :: _) =>
    match first with
    | .obj fs =>
      (match getField fs "tree" with
       | some t => traverseTree t
       | none => [])
    | _ => []
  | .obj fs =>
    (match getField fs "tree" with
     | some t => traverseTree t
     | none => [])
  | _ => []

/-- Envelope shapes on which `process_gene_tree_data` is modelled exactly: a
non-empty list whose first element is not a dict is excluded (see
`process_gene_tree_data`). -/
def envelopeShapeOK : Json → Bool
  | .arr (first :: _) =>
    (match first with
     | .obj _ => true
     | _ => false)
  | _ => true

/-- Reference definition, following the specification's words: the `tree`
envelope unwrapping — a `tree` field of the first element of a non-empty
list, or of a dict given directly. -/
def refUnwrap : Json → Option Json
  | .arr (first :: _) =>
    (match first with
     | .obj fs => getField fs "tree"
     | _ => none)
  | .obj fs => getField fs "tree"
  | _ => none

/-- Payloads on which the modelled flattening agrees with Python: the envelope
shape is modelled and the unwrapped tree (if any) is in the faithful region.
Outside it, `process_gene_tree_dataE` conservatively reports an exception. -/
def flattenSafe (j : Json) : Bool :=
  envelopeShapeOK j &&
    (match refUnwrap j with
     | some t => isGeneTree t
     | none => true)

/-- An exception as observed by the `except` clauses of `process_gene_batch`:
`timeout_decorator.TimeoutError` (line 163) or any other `Exception`
(line 165). -/
inductive PyError where
  | timeoutError
  | otherError
deriving DecidableEq

/-- `process_gene_tree_data` as called by the engine: on payloads outside
`flattenSafe`, Python's traversal generally raises (`TypeError` /
`AttributeError`), which the generic `except` catches; we conservatively
model every such payload as raising. No engine theorem depends on that
region. -/
def process_gene_tree_dataE (j : Json) : Except PyError (List FlatRow) :=
  if flattenSafe j then .ok (process_gene_tree_data j) else .error .otherError

/-- Whether a JSON value is a dict. -/
def Json.isObj : Json → Bool
  | .obj _ => true
  | _ => false

theorem traverseTree_atom {j : Json} (h : j.isObj = false) :
    traverseTree j = [] := by
  cases j with
  | obj fields => simp [Json.isObj] at h
  | null => rw [traverseTree] <;> simp
  | bool b => rw [traverseTree] <;> simp
  | num n => rw [traverseTree] <;> simp
  | str s => rw [traverseTree] <;> simp
  | arr items => rw [traverseTree] <;> simp

theorem traverseTree_children {fields : List (String × Json)}
    {children : List Json}
    (hget : getField fields "children" = some (Json.arr children)) :
    traverseTree (Json.obj fields) = traverseChildren children := by
  rw [traverseTree]
  split <;> simp_all

theorem traverseTree_leaf {fields : List (String × Json)}
    (hget : getField fields "children" = none) :
    traverseTree (Json.obj fields) =
      (match getField fields "taxonomy" with
       | some tax => [leafRowOf fields tax]
       | none => []) := by
  rw [traverseTree]
  split <;> simp_all

theorem traverseChildren_nil : traverseChildren [] = [] := by
  rw [traverseChildren]

theorem traverseChildren_cons (c : Json) (rest : List Json) :
    traverseChildren (c :: rest) = traverseTree c ++ traverseChildren rest := by
  rw [traverseChildren]

theorem isGeneTree_atom {j : Json} (h : j.isObj = false) :
    isGeneTree j = false := by
  cases j with
  | obj fields => simp [Json.isObj] at h
  | null => rw [isGeneTree] <;> simp
  | bool b => rw [isGeneTree] <;> simp
  | num n => rw [isGeneTree] <;> simp
  | str s => rw [isGeneTree] <;> simp
  | arr items => rw [isGeneTree] <;> simp

theorem isGeneTree_children {fields : List (String × Json)}
    {children : List Json}
    (hget : getField fields "children" = some (Json.arr children)) :
    isGeneTree (Json.obj fields) = isGeneTreeList children := by
  rw [isGeneTree]
  split <;> simp_all

theorem isGeneTree_badchildren {fields : List (String × Json)} {v : Json}
    (hget : getField fields "children" = some v)
    (hv : ∀ cs : List Json, v ≠ Json.arr cs) :
    isGeneTree (Json.obj fields) = false := by
  rw [isGeneTree]
  split
  · rename_i cs heq
    rw [hget] at heq
    injection heq with heq
    exact absurd heq (hv cs)
  · rfl
  · rename_i heq
    rw [hget] at heq
    cases heq

theorem isGeneTree_leaf {fields : List (String × Json)}
    (hget : getField fields "children" = none) :
    isGeneTree (Json.obj fields) =
      ((match getField fields "taxonomy" with
        | some (.obj _) => true
        | some _ => false
        | none => true) &&
       (match getField fields "gene_member" with
        | some (.obj _) => true
        | some _ => false
        | none => true)) := by
  rw [isGeneTree]
  split <;> simp_all

theorem isGeneTreeList_nil : isGeneTreeList [] = true := by
  rw [isGeneTreeList]

theorem isGeneTreeList_cons (c : Json) (rest : List Json) :
    isGeneTreeList (c :: rest) = (isGeneTree c && isGeneTreeList rest) := by
  rw [isGeneTreeList]

theorem refLeaves_atom {j : Json} (h : j.isObj = false) :
    refLeaves j = [j] := by
  cases j with
  | obj fields => simp [Json.isObj] at h
  | null => rw [refLeaves] <;> simp
  | bool b => rw [refLeaves] <;> simp
  | num n => rw [refLeaves] <;> simp
  | str s => rw [refLeaves] <;> simp
  | arr items => rw [refLeaves] <;> simp

theorem refLeaves_children {fields : List (String × Json)}
    {children : List Json}
    (hget : getField fields "children" = some (Json.arr children)) :
    refLeaves (Json.obj fields) = refLeavesList children := by
  rw [refLeaves]
  split <;> simp_all

theorem refLeaves_leaf {fields : List (String × Json)}
    (hget : getField fields "children" = none) :
    refLeaves (Json.obj fields) = [Json.obj fields] := by
  rw [refLeaves]
  split <;> simp_all

theorem refLeavesList_nil : refLeavesList [] = [] := by
  rw [refLeavesList]

theorem refLeavesList_cons (c : Json) (rest : List Json) :
    refLeavesList (c :: rest) = refLeaves c ++ refLeavesList rest := by
  rw [refLeavesList]

theorem leafRowOf_eq_refLeafRecord {fields : List (String × Json)} {tax : Json}
    (htax : getField fields "taxonomy" = some tax) :
    leafRowOf fields tax = refLeafRecord (Json.obj fields) := by
  unfold leafRowOf geneMemberNameOf sciNameOf
  simp only [refLeafRecord, htax]
  cases hgm : getField fields "gene_member" with
  | none => cases tax <;> rfl
  | some gm => cases gm <;> (cases tax <;> rfl)

theorem traverseTree_ref_aux :
    ∀ (n : Nat),
      (∀ (j : Json), sizeOf j ≤ n → isGeneTree j = true →
        traverseTree j = ((refLeaves j).filter leafHasTaxonomy).map refLeafRecord) ∧
      (∀ (l : List Json), sizeOf l ≤ n → isGeneTreeList l = true →
        traverseChildren l =
          ((refLeavesList l).filter leafHasTaxonomy).map refLeafRecord) := by
  intro n
  induction n using Nat.strong_induction_on with
  | _ n ih =>
    constructor
    · intro j hle htree
      cases j with
      | obj fields =>
        cases hget : getField fields "children" with
        | some v =>
          cases v with
          | arr children =>
            rw [traverseTree_children hget, refLeaves_children hget]
            rw [isGeneTree_children hget] at htree
            have hlt : sizeOf children < sizeOf (Json.obj fields) :=
              sizeOf_children_lt hget
            have hn : 1 ≤ sizeOf children + 1 := by omega
            exact (ih (sizeOf children) (by omega)).2 children (le_refl _) htree
          | null =>
            rw [isGeneTree_badchildren hget (by intro cs h; cases h)] at htree
            cases htree
          | bool b =>
            rw [isGeneTree_badchildren hget (by intro cs h; cases h)] at htree
            cases htree
          | num m =>
            rw [isGeneTree_badchildren hget (by intro cs h; cases h)] at htree
            cases htree
          | str s =>
            rw [isGeneTree_badchildren hget (by intro cs h; cases h)] at htree
            cases htree
          | obj o =>
            rw [isGeneTree_badchildren hget (by intro cs h; cases h)] at htree
            cases htree
        | none =>
          rw [traverseTree_leaf hget, refLeaves_leaf hget]
          cases htax : getField fields "taxonomy" with
          | some tax =>
            simp [leafHasTaxonomy, htax, leafRowOf_eq_refLeafRecord htax]
          | none =>
            simp [leafHasTaxonomy, htax]
      | null => rw [@isGeneTree_atom Json.null rfl] at htree; cases htree
      | bool b => rw [@isGeneTree_atom (Json.bool b) rfl] at htree; cases htree
      | num m => rw [@isGeneTree_atom (Json.num m) rfl] at htree; cases htree
      | str s => rw [@isGeneTree_atom (Json.str s) rfl] at htree; cases htree
      | arr items => rw [@isGeneTree_atom (Json.arr items) rfl] at htree; cases htree
    · intro l hle hlist
      cases l with
      | nil => rw [traverseChildren_nil, refLeavesList_nil]; rfl
      | cons c rest =>
        rw [traverseChildren_cons, refLeavesList_cons, List.filter_append,
          List.map_append]
        rw [isGeneTreeList_cons, Bool.and_eq_true] at hlist
        have h1 : sizeOf c < sizeOf (c :: rest) := by
          simp only [List.cons.sizeOf_spec]; omega
        have h2 : sizeOf rest < sizeOf (c :: rest) := by
          simp only [List.cons.sizeOf_spec]; omega
        rw [(ih (sizeOf c) (by omega)).1 c (le_refl _) hlist.1,
          (ih (sizeOf rest) (by omega)).2 rest (le_refl _) hlist.2]

/-- Central refinement: on the faithful region, the code's flatten equals the
specification's reference leaf enumeration restricted to the leaves that
carry a `taxonomy` field. -/
theorem traverseTree_eq_filtered_ref (j : Json) (h : isGeneTree j = true) :
    traverseTree j = ((refLeaves j).filter leafHasTaxonomy).map refLeafRecord :=
  (traverseTree_ref_aux (sizeOf j)).1 j (le_refl _) h

/-- The in-memory progress state: the globals `processed_genes` (a set of
gene-id strings, modelled by the list of its elements), `last_processed_gene`
and `current_gene_number` (lines 13-17). The same triple is what
`save_checkpoint` persists and `load_checkpoint` restores. -/
structure CheckpointState where
  processed_genes : List String
  last_processed_gene : Option String
  current_gene_number : Nat
deriving DecidableEq

/-- The JSON record written by `save_checkpoint` (lines 73-79):
`json.dump(\x7b'processed_genes': list(...), 'last_gene': ...,
'current_gene_number': ...\x7d)`. -/
def encodeCheckpoint (st : CheckpointState) : Json :=
  Json.obj
    [("processed_genes", Json.arr (st.processed_genes.map Json.str)),
     ("last_gene",
      match st.last_processed_gene with
      | some g => Json.str g
      | none => Json.null),
     ("current_gene_number", Json.num st.current_gene_number)]

/-- `set(checkpoint_data['processed_genes'])`: collect the elements of the
stored list. Stored records produced by `save_checkpoint` hold only strings;
a non-string element is outside the modelled domain and yields `none`. -/
def asStrList : List Json → Option (List String)
  | [] => some []
  | Json.str s :: rest => (asStrList rest).map (fun l => s :: l)
  | _ :: _ => none

/-- `checkpoint_data['last_gene']`: `null` decodes to no last gene, a string
to that gene; other values are outside the modelled domain. -/
def decodeLastGene : Json → Option (Option String)
  | Json.null => some none
  | Json.str s => some (some s)
  | _ => none

/-- `checkpoint_data.get('current_gene_number', 0)` (line 90): a missing key
defaults to 0. A present non-integer value is outside the modelled domain
(Python would fail later at `range`); it also maps to 0 here. -/
def decodePosition : Option Json → Nat
  | some (Json.num n) => n.toNat
  | some _ => 0
  | none => 0

/-- `load_checkpoint` (lines 82-92) over the abstract checkpoint file
(`none` models a missing `checkpoint.json`, which yields the fresh state).
A `none` result models the exception Python raises on a malformed record
(`KeyError` for a missing `processed_genes` or `last_gene`, `TypeError` from
`set(...)` on a non-list). -/
def load_checkpoint (file : Option Json) : Option CheckpointState :=
  match file with
  | none =>
    some { processed_genes := [], last_processed_gene := none,
           current_gene_number := 0 }
  | some (Json.obj fields) =>
    match getField fields "processed_genes", getField fields "last_gene" with
    | some (Json.arr xs), some lastJ =>
      (match asStrList xs, decodeLastGene lastJ with
       | some procs, some lastv =>
         some { processed_genes := procs, last_processed_gene := lastv,
                current_gene_number :=
                  decodePosition (getField fields "current_gene_number") }
       | _, _ => none)
    | _, _ => none
  | some _ => none

/-- One JSON string literal as `json.dump` writes it. Gene identifiers
contain no characters needing escapes, so escaping is not modelled. -/
def quoteJson (s : String) : String := "\x22" ++ s ++ "\x22"

/-- The exact character stream `save_checkpoint` writes with `json.dump`
(default separators): the serialized checkpoint record. -/
def serializeCheckpoint (st : CheckpointState) : List Char :=
  ("\x7b" ++ quoteJson "processed_genes" ++ ": [" ++
    String.intercalate ", " (st.processed_genes.map quoteJson) ++ "], " ++
    quoteJson "last_gene" ++ ": " ++
    (match st.last_processed_gene with
     | some g => quoteJson g
     | none => "null") ++ ", " ++
    quoteJson "current_gene_number" ++ ": " ++
    toString st.current_gene_number ++ "\x7d").data

/-- Durable content of `checkpoint.json` if the process dies at point `k` of
`save_checkpoint` (lines 73-79): `k = 0` is before `open('checkpoint.json',
'w')` runs, so the previous content survives; `k = i + 1` is after the
truncating open has been followed by the first `i` characters of the new
serialization (`k = 1` is right after the open, leaving an empty file; any
`k` past the full length is an uninterrupted save). The write is in place:
there is no temp-file-and-rename step in the code. -/
def saveCrashState (prev : List Char) (st : CheckpointState) (k : Nat) :
    List Char :=
  if k = 0 then prev else (serializeCheckpoint st).take (k - 1)

/-- One row of the identifier list loaded from
`Green_Anole_protein-coding_genes.csv` (lines 200-203). -/
structure Gene where
  gene_id : String
  gene_symbol : String
deriving DecidableEq

/-- Outcome of one remote HTTP call, as observed by `fetch_gene_info` /
`fetch_gene_tree_info`: a 2xx response with its decoded body, a non-2xx
status (the function returns `None`), a `timeout_decorator.TimeoutError`, or
a transport-level exception raised by `requests`. -/
inductive CallOutcome where
  | ok (payload : Json)
  | nonSuccess
  | timeout
  | transport

/-- The remote service, as a pure oracle: `primary` is the `/lookup/id`
endpoint keyed by gene id, `dependent` the `/genetree/member/symbol`
endpoint keyed by the (gene id, display symbol) arguments of
`fetch_gene_tree_info`. -/
structure Oracle where
  primary : String → CallOutcome
  dependent : String → String → CallOutcome

mutual

/-- Approximate Python `str()` of a decoded JSON value, used only when a
present `display_name` is not a string and gets interpolated into the
artifact filename; exact repr punctuation is irrelevant to every claim. -/
def pyRender (v : Json) : String :=
  match v with
  | .null => "None"
  | .bool true => "True"
  | .bool false => "False"
  | .num n => toString n
  | .str s => s
  | .arr items => "[" ++ pyRenderList items ++ "]"
  | .obj fields => "\x7b" ++ pyRenderFields fields ++ "\x7d"
termination_by sizeOf v

def pyRenderList (items : List Json) : String :=
  match items with
  | [] => ""
  | x :: rest => pyRender x ++ (if rest.isEmpty then "" else ", ") ++ pyRenderList rest
termination_by sizeOf items
decreasing_by
  · simp only [List.cons.sizeOf_spec]; omega
  · simp only [List.cons.sizeOf_spec]; omega

def pyRenderFields (fields : List (String × Json)) : String :=
  match fields with
  | [] => ""
  | (k, v) :: rest =>
    k ++ ": " ++ pyRender v ++ (if rest.isEmpty then "" else ", ") ++ pyRenderFields rest
termination_by sizeOf fields
decreasing_by
  · simp only [List.cons.sizeOf_spec, Prod.mk.sizeOf_spec]; omega
  · simp only [List.cons.sizeOf_spec]; omega

end

/-- `gene_symbol = gene_info.get('display_name', gene['gene_symbol'])`
(line 121), as interpolated into filenames: `.ok` carries the resulting
text; `.error` models the `AttributeError` Python raises when `gene_info`
is not a dict (`.get` on a non-dict). -/
def displaySymbolE (gene_info : Json) (fallback : String) :
    Except PyError String :=
  match gene_info with
  | .obj fields =>
    (match getField fields "display_name" with
     | some (Json.str s) => .ok s
     | some v => .ok (pyRender v)
     | none => .ok fallback)
  | _ => .error .otherError

/-- One output artifact: the tabular CSV (columns `gene_id, gene_name,
species`, lines 132-138) or the `No gene tree available` marker text file
(lines 144-146 and 149-151), each named from the display symbol. -/
inductive Artifact where
  | csv (filename : String) (rows : List FlatRow)
  | txt (filename : String)

/-- The externally observable events of (part of) a run, in order: remote
primary calls (gene ids), remote dependent calls (gene id, symbol), artifact
writes, and checkpoint saves (each the JSON record written). -/
structure RunLog where
  primaryCalls : List String
  dependentCalls : List (String × String)
  artifacts : List Artifact
  saves : List Json

def RunLog.empty : RunLog := ⟨[], [], [], []⟩

def RunLog.append (a b : RunLog) : RunLog :=
  ⟨a.primaryCalls ++ b.primaryCalls, a.dependentCalls ++ b.dependentCalls,
   a.artifacts ++ b.artifacts, a.saves ++ b.saves⟩

/-- `processed_genes.add(gene['gene_id'])` (line 157): set insertion,
modelled on the element list. -/
def addProcessed (l : List String) (id : String) : List String :=
  if l.contains id then l else l ++ [id]

/-- Lines 157-158: add the gene to the processed set and update the last
processed gene (`current_gene_number` was already incremented at line 106). -/
def completeState (st : CheckpointState) (id : String) : CheckpointState :=
  { st with processed_genes := addProcessed st.processed_genes id,
            last_processed_gene := some id }

/-- Lines 144-152 then 157-161: write the `No gene tree available` marker,
mark the gene completed, save the checkpoint. -/
def completeNoData (st : CheckpointState) (g : Gene) (symbol : String) :
    CheckpointState × RunLog :=
  let st' := completeState st g.gene_id
  (st', ⟨[g.gene_id], [(g.gene_id, symbol)],
         [Artifact.txt (symbol ++ "_gene_tree.txt")], [encodeCheckpoint st']⟩)

/-- Lines 131-141 then 157-161: write the CSV artifact, mark the gene
completed, save the checkpoint. -/
def completeCsv (st : CheckpointState) (g : Gene) (symbol : String)
    (rows : List FlatRow) : CheckpointState × RunLog :=
  let st' := completeState st g.gene_id
  (st', ⟨[g.gene_id], [(g.gene_id, symbol)],
         [Artifact.csv (symbol ++ "_gene_tree.csv") rows], [encodeCheckpoint st']⟩)

/-- The body of one iteration of the `for gene in batch` loop of
`process_gene_batch` (lines 108-169), after the `current_gene_number`
increment of line 106: skip test, primary fetch, dependent fetch, flatten,
artifact write, completion and checkpoint save, with the `except` clauses
catching the timeout and any other exception. Console output, `tqdm` and
`time.sleep(1)` have no modelled effect. -/
def processGeneBody (o : Oracle) (st : CheckpointState) (g : Gene) :
    CheckpointState × RunLog :=
  if st.processed_genes.contains g.gene_id then
    (st, RunLog.empty)
  else
    match o.primary g.gene_id with
    | .timeout => (st, ⟨[g.gene_id], [], [], []⟩)
    | .transport => (st, ⟨[g.gene_id], [], [], []⟩)
    | .nonSuccess => (st, ⟨[g.gene_id], [], [], []⟩)
    | .ok gene_info =>
      if gene_info.truthy = false then
        (st, ⟨[g.gene_id], [], [], []⟩)
      else
        match displaySymbolE gene_info g.gene_symbol with
        | .error _ => (st, ⟨[g.gene_id], [], [], []⟩)
        | .ok symbol =>
          match o.dependent g.gene_id symbol with
          | .timeout => (st, ⟨[g.gene_id], [(g.gene_id, symbol)], [], []⟩)
          | .transport => (st, ⟨[g.gene_id], [(g.gene_id, symbol)], [], []⟩)
          | .nonSuccess => completeNoData st g symbol
          | .ok tree_info =>
            if tree_info.truthy then
              match process_gene_tree_dataE tree_info with
              | .error _ => (st, ⟨[g.gene_id], [(g.gene_id, symbol)], [], []⟩)
              | .ok rows =>
                if rows.isEmpty then completeNoData st g symbol
                else completeCsv st g symbol rows
            else completeNoData st g symbol

/-- One full iteration of the `for gene in batch` loop (lines 105-169):
`current_gene_number` is incremented first (line 106), before the skip test
(line 108), so it counts iterated genes, not completed ones. -/
def processGene (o : Oracle) (st : CheckpointState) (g : Gene) :
    CheckpointState × RunLog :=
  processGeneBody o
    { st with current_gene_number := st.current_gene_number + 1 } g

/-- `process_gene_batch` over a batch: the per-gene loop, threading the
global state and concatenating the observable events. -/
def processBatch (o : Oracle) (batch : List Gene) (st : CheckpointState) :
    CheckpointState × RunLog :=
  match batch with
  | [] => (st, RunLog.empty)
  | g :: rest =>
    let r1 := processGene o st g
    let r2 := processBatch o rest r1.1
    (r2.1, r1.2.append r2.2)

/-- Python `range(start, stop, step)` for a positive step. -/
def pyRangeStep (start stop step : Nat) : List Nat :=
  List.range' start ((stop - start + (step - 1)) / step) step

/-- The batch loop of `process_all_gene_trees` (lines 209-214):
`for i in range(current_gene_number, len(anole_genes), 100)`, slicing
`anole_genes[i:i+100]` each time. -/
def runBatches (o : Oracle) (genes : List Gene) (st0 : CheckpointState) :
    CheckpointState × RunLog :=
  (pyRangeStep st0.current_gene_number genes.length 100).foldl
    (fun acc i =>
      let r := processBatch o ((genes.drop i).take 100) acc.1
      (r.1, acc.2.append r.2))
    (st0, RunLog.empty)

/-- `process_all_gene_trees` (lines 172-217) relative to the oracle and the
abstract checkpoint file: load the checkpoint (a malformed file raises, hence
`none`), run the batches of 100 from the loaded `current_gene_number`, save a
final checkpoint. Reading the gene CSV is outside the modelled core: `genes`
is the already-loaded identifier list. -/
def process_all_gene_trees (o : Oracle) (genes : List Gene)
    (checkpointFile : Option Json) : Option (CheckpointState × RunLog) :=
  (load_checkpoint checkpointFile).map fun st0 =>
    let r := runBatches o genes st0
    (r.1, r.2.append ⟨[], [], [], [encodeCheckpoint r.1]⟩)

/-- A run interrupted at the boundary after `k` iterated identifiers:
`signal_handler` (lines 94-99) saves the current in-memory state. Returns
the state at the interruption, the events so far, and the checkpoint record
the handler writes. -/
def runInterrupted (o : Oracle) (genes : List Gene) (st0 : CheckpointState)
    (k : Nat) : CheckpointState × RunLog × Json :=
  let r := processBatch o (((genes.drop st0.current_gene_number)).take k) st0
  (r.1, r.2, encodeCheckpoint r.1)

theorem addProcessed_of_not_contains {l : List String} {id : String}
    (h : l.contains id = false) : addProcessed l id = l ++ [id] := by
  have hm : id ∉ l := by simpa using h
  simp [addProcessed, hm]

theorem processGeneBody_master (o : Oracle) (st : CheckpointState) (g : Gene) :
    (processGeneBody o st g).1.current_gene_number = st.current_gene_number ∧
    (processGeneBody o st g).2.primaryCalls =
      (if st.processed_genes.contains g.gene_id then ([] : List String)
       else [g.gene_id]) ∧
    (((processGeneBody o st g).1.processed_genes = st.processed_genes ∧
      (processGeneBody o st g).1.last_processed_gene = st.last_processed_gene ∧
      (processGeneBody o st g).2.artifacts = [] ∧
      (processGeneBody o st g).2.saves = []) ∨
     (st.processed_genes.contains g.gene_id = false ∧ ∃ a,
       (processGeneBody o st g).2.artifacts = [a] ∧
       (processGeneBody o st g).1.processed_genes =
         st.processed_genes ++ [g.gene_id] ∧
       (processGeneBody o st g).1.last_processed_gene = some g.gene_id ∧
       (processGeneBody o st g).2.saves =
         [encodeCheckpoint (processGeneBody o st g).1])) := by
  by_cases hc : st.processed_genes.contains g.gene_id
  · have hm : g.gene_id ∈ st.processed_genes := by simpa using hc
    refine ⟨?_, ?_, Or.inl ⟨?_, ?_, ?_, ?_⟩⟩ <;> simp [processGeneBody, hc, hm, RunLog.empty]
  · have hcf : st.processed_genes.contains g.gene_id = false := by
      simpa using hc
    have hnm : g.gene_id ∉ st.processed_genes := by simpa using hcf
    cases hp : o.primary g.gene_id with
    | timeout =>
      refine ⟨?_, ?_, Or.inl ⟨?_, ?_, ?_, ?_⟩⟩ <;> simp [processGeneBody, hnm, hp, RunLog.empty]
    | transport =>
      refine ⟨?_, ?_, Or.inl ⟨?_, ?_, ?_, ?_⟩⟩ <;> simp [processGeneBody, hnm, hp, RunLog.empty]
    | nonSuccess =>
      refine ⟨?_, ?_, Or.inl ⟨?_, ?_, ?_, ?_⟩⟩ <;> simp [processGeneBody, hnm, hp, RunLog.empty]
    | ok info =>
      by_cases ht : info.truthy = false
      · refine ⟨?_, ?_, Or.inl ⟨?_, ?_, ?_, ?_⟩⟩ <;>
          simp [processGeneBody, hnm, hp, ht]
      · cases hsym : displaySymbolE info g.gene_symbol with
        | error e =>
          refine ⟨?_, ?_, Or.inl ⟨?_, ?_, ?_, ?_⟩⟩ <;>
            simp [processGeneBody, hnm, hp, ht, hsym]
        | ok symbol =>
          cases hdep : o.dependent g.gene_id symbol with
          | timeout =>
            refine ⟨?_, ?_, Or.inl ⟨?_, ?_, ?_, ?_⟩⟩ <;>
              simp [processGeneBody, hnm, hp, ht, hsym, hdep]
          | transport =>
            refine ⟨?_, ?_, Or.inl ⟨?_, ?_, ?_, ?_⟩⟩ <;>
              simp [processGeneBody, hnm, hp, ht, hsym, hdep]
          | nonSuccess =>
            refine ⟨?_, ?_, Or.inr ⟨hcf,
              Artifact.txt (symbol ++ "_gene_tree.txt"), ?_, ?_, ?_, ?_⟩⟩ <;>
              simp [processGeneBody, hnm, hp, ht, hsym, hdep, completeNoData,
                completeState, addProcessed_of_not_contains hcf]
          | ok tree =>
            by_cases htr : tree.truthy
            · cases hflat : process_gene_tree_dataE tree with
              | error e =>
                refine ⟨?_, ?_, Or.inl ⟨?_, ?_, ?_, ?_⟩⟩ <;>
                  simp [processGeneBody, hnm, hp, ht, hsym, hdep, htr, hflat]
              | ok rows =>
                by_cases hrows : rows.isEmpty
                · refine ⟨?_, ?_, Or.inr ⟨hcf,
                    Artifact.txt (symbol ++ "_gene_tree.txt"), ?_, ?_, ?_, ?_⟩⟩ <;>
                    simp [processGeneBody, hnm, hp, ht, hsym, hdep, htr, hflat,
                      hrows, completeNoData, completeState,
                      addProcessed_of_not_contains hcf]
                · refine ⟨?_, ?_, Or.inr ⟨hcf,
                    Artifact.csv (symbol ++ "_gene_tree.csv") rows, ?_, ?_, ?_, ?_⟩⟩ <;>
                    simp [processGeneBody, hnm, hp, ht, hsym, hdep, htr, hflat,
                      hrows, completeCsv, completeState,
                      addProcessed_of_not_contains hcf]
            · refine ⟨?_, ?_, Or.inr ⟨hcf,
                Artifact.txt (symbol ++ "_gene_tree.txt"), ?_, ?_, ?_, ?_⟩⟩ <;>
                simp [processGeneBody, hnm, hp, ht, hsym, hdep, htr, completeNoData,
                  completeState, addProcessed_of_not_contains hcf]

theorem RunLog.empty_append (a : RunLog) : RunLog.empty.append a = a := by
  cases a
  simp [RunLog.append, RunLog.empty]

theorem RunLog.append_empty (a : RunLog) : a.append RunLog.empty = a := by
  cases a
  simp [RunLog.append, RunLog.empty]

theorem RunLog.append_assoc (a b c : RunLog) :
    (a.append b).append c = a.append (b.append c) := by
  cases a
  cases b
  cases c
  simp [RunLog.append]

theorem RunLog.append_primaryCalls (a b : RunLog) :
    (a.append b).primaryCalls = a.primaryCalls ++ b.primaryCalls := rfl

theorem processGene_master (o : Oracle) (st : CheckpointState) (g : Gene) :
    (processGene o st g).1.current_gene_number = st.current_gene_number + 1 ∧
    (processGene o st g).2.primaryCalls =
      (if st.processed_genes.contains g.gene_id then ([] : List String)
       else [g.gene_id]) ∧
    (((processGene o st g).1.processed_genes = st.processed_genes ∧
      (processGene o st g).1.last_processed_gene = st.last_processed_gene ∧
      (processGene o st g).2.artifacts = [] ∧
      (processGene o st g).2.saves = []) ∨
     (st.processed_genes.contains g.gene_id = false ∧ ∃ a,
       (processGene o st g).2.artifacts = [a] ∧
       (processGene o st g).1.processed_genes =
         st.processed_genes ++ [g.gene_id] ∧
       (processGene o st g).1.last_processed_gene = some g.gene_id ∧
       (processGene o st g).2.saves =
         [encodeCheckpoint (processGene o st g).1])) :=
  processGeneBody_master o
    { st with current_gene_number := st.current_gene_number + 1 } g

theorem processBatch_append (o : Oracle) (a b : List Gene)
    (st : CheckpointState) :
    processBatch o (a ++ b) st =
      ((processBatch o b (processBatch o a st).1).1,
       (processBatch o a st).2.append
         (processBatch o b (processBatch o a st).1).2) := by
  induction a generalizing st with
  | nil => simp [processBatch, RunLog.empty_append]
  | cons g rest ih =>
    simp only [List.cons_append, processBatch]
    rw [show List.append rest b = rest ++ b from rfl, ih]
    simp [RunLog.append_assoc]

theorem processBatch_primaryCalls (o : Oracle) :
    ∀ (batch : List Gene) (st : CheckpointState),
      (batch.map Gene.gene_id).Nodup →
      (processBatch o batch st).2.primaryCalls =
        (batch.filter
          (fun g => !st.processed_genes.contains g.gene_id)).map Gene.gene_id := by
  intro batch
  induction batch with
  | nil =>
    intro st _
    simp [processBatch, RunLog.empty]
  | cons g rest ih =>
    intro st hnodup
    simp only [List.map_cons, List.nodup_cons, List.mem_map] at hnodup
    obtain ⟨hgnotin, hnodup⟩ := hnodup
    obtain ⟨hcur, hcalls, hdich⟩ := processGene_master o st g
    have hfilter :
        (rest.filter
          (fun g' => !(processGene o st g).1.processed_genes.contains g'.gene_id)) =
        (rest.filter (fun g' => !st.processed_genes.contains g'.gene_id)) := by
      apply List.filter_congr
      intro g' hg'
      have hne : g'.gene_id ≠ g.gene_id := by
        intro h
        exact hgnotin ⟨g', hg', h⟩
      rcases hdich with ⟨hsame, _⟩ | ⟨_, a, _, happ, _⟩
      · rw [hsame]
      · rw [happ]
        simp [hne]
    by_cases hc : st.processed_genes.contains g.gene_id
    · have hm : g.gene_id ∈ st.processed_genes := by simpa using hc
      simp only [processBatch, RunLog.append_primaryCalls, hcalls, if_pos hc,
        List.nil_append, ih (processGene o st g).1 hnodup, hfilter,
        List.filter_cons]
      simp [hm]
    · have hcf : st.processed_genes.contains g.gene_id = false := by
        simpa using hc
      have hm : g.gene_id ∉ st.processed_genes := by simpa using hcf
      simp only [processBatch, RunLog.append_primaryCalls, hcalls, if_neg hc,
        ih (processGene o st g).1 hnodup, hfilter, List.filter_cons]
      simp [hm]

theorem length_le_pyRange_bound (len a : Nat) :
    len ≤ a + 100 * ((len - a + 99) / 100) := by
  have h := Nat.div_add_mod (len - a + 99) 100
  have h2 : (len - a + 99) % 100 < 100 := Nat.mod_lt _ (by omega)
  omega

theorem foldl_batches (o : Oracle) (genes : List Gene) :
    ∀ (cnt a : Nat) (st : CheckpointState) (log : RunLog),
      genes.length ≤ a + 100 * cnt →
      (List.range' a cnt 100).foldl
        (fun acc i =>
          let r := processBatch o ((genes.drop i).take 100) acc.1
          (r.1, acc.2.append r.2)) (st, log) =
      ((processBatch o (genes.drop a) st).1,
        log.append (processBatch o (genes.drop a) st).2) := by
  intro cnt
  induction cnt with
  | zero =>
    intro a st log hlen
    have hnil : genes.drop a = [] := List.drop_eq_nil_of_le (by omega)
    simp [List.range', hnil, processBatch, RunLog.append_empty]
  | succ n ih =>
    intro a st log hlen
    rw [List.range'_succ, List.foldl_cons]
    have hsplit : genes.drop a = (genes.drop a).take 100 ++ genes.drop (a + 100) := by
      conv_lhs => rw [← List.take_append_drop 100 (genes.drop a)]
      rw [List.drop_drop]
    rw [ih (a + 100) _ _ (by omega)]
    conv_rhs => rw [hsplit]
    rw [processBatch_append, RunLog.append_assoc]

theorem runBatches_eq (o : Oracle) (genes : List Gene) (st0 : CheckpointState) :
    runBatches o genes st0 =
      processBatch o (genes.drop st0.current_gene_number) st0 := by
  unfold runBatches pyRangeStep
  rw [foldl_batches o genes _ _ _ RunLog.empty
    (length_le_pyRange_bound genes.length st0.current_gene_number)]
  rw [RunLog.empty_append]

theorem asStrList_map_str (l : List String) :
    asStrList (l.map Json.str) = some l := by
  induction l with
  | nil => rfl
  | cons s rest ih => simp [asStrList, ih]

/-- An oracle on which every remote call reports a non-2xx status. -/
def anyOracle : Oracle :=
  { primary := fun _ => CallOutcome.nonSuccess,
    dependent := fun _ _ => CallOutcome.nonSuccess }

/-- C10: saving any checkpoint state with `save_checkpoint` and reading it
back with `load_checkpoint` returns exactly the same processed set, the same
last identifier and the same position; and a stored record lacking the
`current_gene_number` key loads with position 0. -/
theorem c10_checkpoint_roundtrip (st : CheckpointState) :
    load_checkpoint (some (encodeCheckpoint st)) = some st ∧
    (∀ (procs : List String) (last : Option String),
      load_checkpoint (some (Json.obj
        [("processed_genes", Json.arr (procs.map Json.str)),
         ("last_gene",
          match last with
          | some g => Json.str g
          | none => Json.null)])) =
        some { processed_genes := procs, last_processed_gene := last,
               current_gene_number := 0 }) := by
  constructor
  · obtain ⟨procs, last, pos⟩ := st
    cases last with
    | none =>
      simp [load_checkpoint, encodeCheckpoint, getField, asStrList_map_str,
        decodeLastGene, decodePosition]
    | some g =>
      simp [load_checkpoint, encodeCheckpoint, getField, asStrList_map_str,
        decodeLastGene, decodePosition]
  · intro procs last
    cases last with
    | none =>
      simp [load_checkpoint, getField, asStrList_map_str, decodeLastGene,
        decodePosition]
    | some g =>
      simp [load_checkpoint, getField, asStrList_map_str, decodeLastGene,
        decodePosition]

/-- A valid previous checkpoint file content (the serialized fresh state). -/
def prevCheckpointFile : List Char :=
  serializeCheckpoint
    { processed_genes := [], last_processed_gene := none,
      current_gene_number := 0 }

/-- The state being saved in the C8 scenario. -/
def c8NewState : CheckpointState :=
  { processed_genes := ["G1"], last_processed_gene := some "G1",
    current_gene_number := 1 }

/-- C8 counterexample: `save_checkpoint` truncates `checkpoint.json` in place
(`open(..., 'w')` then `json.dump`); a crash right after the truncating open
(point `k = 1`) leaves an empty file, which is neither the previous valid
checkpoint nor the new serialized state — the durable file is corrupted. -/
theorem c8_truncating_save_not_atomic :
    saveCrashState prevCheckpointFile c8NewState 1 = [] ∧
    prevCheckpointFile ≠ [] ∧
    serializeCheckpoint c8NewState ≠ [] := by
  refine ⟨rfl, ?_, ?_⟩ <;> decide

/-- C8 amended: `save_checkpoint` is not crash-atomic. A crash during the
save leaves either the previous file content (crash before the truncating
open, `k = 0`) or some prefix of the new serialization — possibly the empty
file, so the previous valid state is not preserved; only an uninterrupted
save (any crash point past the full length) leaves exactly the new
serialized state. -/
theorem c8_amended_crash_prefix (prev : List Char) (st : CheckpointState)
    (k : Nat) :
    (saveCrashState prev st k = prev ∨
     ∃ m, m ≤ (serializeCheckpoint st).length ∧
       saveCrashState prev st k = (serializeCheckpoint st).take m) ∧
    saveCrashState prev st ((serializeCheckpoint st).length + 1) =
      serializeCheckpoint st := by
  constructor
  · by_cases hk : k = 0
    · exact Or.inl (by simp [saveCrashState, hk])
    · right
      by_cases hlen : k - 1 ≤ (serializeCheckpoint st).length
      · exact ⟨k - 1, hlen, by simp [saveCrashState, hk]⟩
      · refine ⟨(serializeCheckpoint st).length, le_refl _, ?_⟩
        simp only [saveCrashState, hk, if_false]
        rw [List.take_of_length_le (by omega), List.take_length]
  · simp only [saveCrashState, Nat.succ_ne_zero, if_false, Nat.add_sub_cancel]
    exact List.take_length _

/-- C9 counterexample: iterating an identifier already in the processed set
still mutates the checkpoint state — `current_gene_number += 1` runs at line
106 before the skip test of line 108 — so "no change to any component of the
checkpoint state" is false for the position component. -/
theorem c9_skip_increments_position :
    (⟨["G1"], some "G1", 0⟩ : CheckpointState).processed_genes.contains "G1"
        = true ∧
    (processGene anyOracle ⟨["G1"], some "G1", 0⟩
        ⟨"G1", "g1"⟩).1.current_gene_number ≠
      (⟨["G1"], some "G1", 0⟩ : CheckpointState).current_gene_number := by
  refine ⟨rfl, ?_⟩
  decide

/-- C9 amended: processing an identifier already in the completed set makes
no remote calls, writes no artifact, saves no checkpoint, and leaves
`processed_genes` and `last_processed_gene` unchanged — but it still
increments `current_gene_number`, which counts iterated genes rather than
completed ones. -/
theorem c9_amended_skip_no_side_effects (o : Oracle) (st : CheckpointState)
    (g : Gene) (h : st.processed_genes.contains g.gene_id = true) :
    processGene o st g =
      ({ st with current_gene_number := st.current_gene_number + 1 },
       RunLog.empty) := by
  have hm : g.gene_id ∈ st.processed_genes := by simpa using h
  simp [processGene, processGeneBody, hm]

theorem c9_amended_skip_no_side_effects_witness :
    (⟨["G1"], some "G1", 5⟩ : CheckpointState).processed_genes.contains "G1"
        = true ∧
    processGene anyOracle ⟨["G1"], some "G1", 5⟩ ⟨"G1", "g1"⟩ =
      (⟨["G1"], some "G1", 6⟩, RunLog.empty) :=
  ⟨rfl, c9_amended_skip_no_side_effects anyOracle ⟨["G1"], some "G1", 5⟩
    ⟨"G1", "g1"⟩ rfl⟩

/-- C3 counterexample: the childless node with no fields is a leaf (it has no
`children` key), yet `traverse_tree` emits no record for it — the `if
'taxonomy' in node` guard at line 54 silently drops any leaf without a
`taxonomy` field instead of substituting "N/A". -/
theorem c3_leaf_without_taxonomy_omitted :
    getField ([] : List (String × Json)) "children" = none ∧
    refLeaves (Json.obj []) = [Json.obj []] ∧
    traverseTree (Json.obj []) = [] ∧
    process_gene_tree_data (Json.obj [("tree", Json.obj [])]) = [] := by
  refine ⟨rfl, ?_, ?_, ?_⟩
  · simp [refLeaves, getField]
  · simp [traverseTree, getField]
  · simp [process_gene_tree_data, getField, traverseTree]

/-- C3 amended: a leaf node (no `children` field) of a well-shaped tree emits
exactly one flattened record iff it carries a `taxonomy` field — with the
sentinel "N/A" substituted for each of `id`, `gene_member.display_name` and
`taxonomy.scientific_name` that is absent — and is omitted entirely when it
has no `taxonomy` field. -/
theorem c3_amended_leaf_extraction (fields : List (String × Json))
    (hwf : isGeneTree (Json.obj fields) = true)
    (hleaf : getField fields "children" = none) :
    traverseTree (Json.obj fields) =
      (if leafHasTaxonomy (Json.obj fields)
       then [refLeafRecord (Json.obj fields)] else []) := by
  rw [traverseTree_leaf hleaf]
  cases htax : getField fields "taxonomy" with
  | some tax => simp [leafHasTaxonomy, htax, leafRowOf_eq_refLeafRecord htax]
  | none => simp [leafHasTaxonomy, htax]

/-- A concrete leaf carrying a taxonomy object but no `id`, no `gene_member`
and no `scientific_name`. -/
def c3WitnessFields : List (String × Json) := [("taxonomy", Json.obj [])]

theorem c3_amended_leaf_extraction_witness :
    isGeneTree (Json.obj c3WitnessFields) = true ∧
    traverseTree (Json.obj c3WitnessFields) =
      (if leafHasTaxonomy (Json.obj c3WitnessFields)
       then [refLeafRecord (Json.obj c3WitnessFields)] else []) :=
  ⟨by simp [c3WitnessFields, isGeneTree, getField],
   c3_amended_leaf_extraction c3WitnessFields
     (by simp [c3WitnessFields, isGeneTree, getField]) rfl⟩

/-- A well-shaped tree whose second leaf lacks a `taxonomy` field. -/
def c6Tree : Json :=
  Json.obj [("children", Json.arr
    [Json.obj [("taxonomy", Json.obj [("scientific_name", Json.str "Species A")]),
               ("id", Json.str "L1")],
     Json.obj []])]

/-- C6 counterexample: on a tree whose second leaf lacks `taxonomy`, the
code's flatten output (one record) differs from the reference enumeration of
all leaves (two records): a leaf is dropped, so flatten does not equal the
reference recursive leaf enumeration. -/
theorem c6_flatten_ne_all_leaf_enumeration :
    isGeneTree c6Tree = true ∧
    traverseTree c6Tree ≠ (refLeaves c6Tree).map refLeafRecord := by
  constructor
  · simp [c6Tree, isGeneTree, isGeneTreeList, getField]
  · have h1 : traverseTree c6Tree =
        [⟨Json.str "L1", Json.str "N/A", Json.str "Species A"⟩] := by
      simp [c6Tree, traverseTree, traverseChildren, getField, leafRowOf,
        geneMemberNameOf, sciNameOf]
    have h2 : (refLeaves c6Tree).map refLeafRecord =
        [⟨Json.str "L1", Json.str "N/A", Json.str "Species A"⟩,
         ⟨Json.str "N/A", Json.str "N/A", Json.str "N/A"⟩] := by
      simp [c6Tree, refLeaves, refLeavesList, refLeafRecord, getField]
    intro h
    rw [h1, h2] at h
    simp at h

/-- C6 amended: for every well-shaped tree, flatten returns — in depth-first
pre-order left-to-right order — exactly the records of the leaves that carry
a `taxonomy` field (the reference recursive leaf enumeration filtered to such
leaves, each rendered with "N/A" for missing fields); internal nodes and
taxonomy-less leaves contribute nothing, under either `tree` envelope. -/
theorem c6_amended_flatten_eq_taxonomy_leaves (j : Json)
    (h : isGeneTree j = true) :
    traverseTree j = ((refLeaves j).filter leafHasTaxonomy).map refLeafRecord ∧
    process_gene_tree_data (Json.obj [("tree", j)]) =
      ((refLeaves j).filter leafHasTaxonomy).map refLeafRecord ∧
    process_gene_tree_data (Json.arr [Json.obj [("tree", j)]]) =
      ((refLeaves j).filter leafHasTaxonomy).map refLeafRecord := by
  have h1 := traverseTree_eq_filtered_ref j h
  refine ⟨h1, ?_, ?_⟩ <;> simp [process_gene_tree_data, getField, h1]

/-- A well-shaped tree with a nested internal node and all three leaf kinds:
full fields, taxonomy-only, and no taxonomy. -/
def c6WitnessTree : Json :=
  Json.obj [("children", Json.arr
    [Json.obj [("children", Json.arr
       [Json.obj [("taxonomy", Json.obj [])],
        Json.obj [("id", Json.str "X")]])],
     Json.obj [("taxonomy", Json.obj [("scientific_name", Json.str "B")]),
               ("gene_member", Json.obj [("display_name", Json.str "G")]),
               ("id", Json.str "L9")]])]

theorem c6_amended_flatten_eq_taxonomy_leaves_witness :
    isGeneTree c6WitnessTree = true ∧
    (traverseTree c6WitnessTree =
      ((refLeaves c6WitnessTree).filter leafHasTaxonomy).map refLeafRecord ∧
    process_gene_tree_data (Json.obj [("tree", c6WitnessTree)]) =
      ((refLeaves c6WitnessTree).filter leafHasTaxonomy).map refLeafRecord ∧
    process_gene_tree_data (Json.arr [Json.obj [("tree", c6WitnessTree)]]) =
      ((refLeaves c6WitnessTree).filter leafHasTaxonomy).map refLeafRecord) :=
  ⟨by simp [c6WitnessTree, isGeneTree, isGeneTreeList, getField],
   c6_amended_flatten_eq_taxonomy_leaves c6WitnessTree
     (by simp [c6WitnessTree, isGeneTree, isGeneTreeList, getField])⟩

/-- A two-element list whose first element wraps a one-leaf tree. -/
def c7TwoList : Json :=
  Json.arr [Json.obj [("tree", Json.obj [("taxonomy", Json.obj [])])],
            Json.obj []]

/-- C7 counterexample: a two-element list is not one of the shapes the claim
unwraps (it is not a single-element list), so per the claim flatten should
return the empty sequence — but the code checks only `len(...) > 0` and
unwraps the first element, producing a record. -/
theorem c7_two_element_list_unwrapped :
    process_gene_tree_data c7TwoList =
      [⟨Json.str "N/A", Json.str "N/A", Json.str "N/A"⟩] := by
  simp [c7TwoList, process_gene_tree_data, getField, traverseTree, leafRowOf,
    geneMemberNameOf, sciNameOf]

/-- C7 amended: on every modelled envelope shape, flatten of `null` or any
non-dict scalar is empty; a NON-EMPTY list (not only a single-element one)
whose first element is a dict is unwrapped through that first element's
`tree` field; a dict is unwrapped through its `tree` field; an empty list, or
a dict/first-element without a `tree` field, yields the empty sequence. -/
theorem c7_amended_envelope_unwrap (j : Json)
    (h : envelopeShapeOK j = true) :
    process_gene_tree_data j = (refUnwrap j).elim [] traverseTree := by
  cases j with
  | arr items =>
    cases items with
    | nil => rfl
    | cons first rest =>
      cases first with
      | obj fs =>
        simp only [process_gene_tree_data, refUnwrap]
        cases getField fs "tree" <;> simp
      | null => simp [envelopeShapeOK] at h
      | bool b => simp [envelopeShapeOK] at h
      | num n => simp [envelopeShapeOK] at h
      | str s => simp [envelopeShapeOK] at h
      | arr xs => simp [envelopeShapeOK] at h
  | obj fs =>
    simp only [process_gene_tree_data, refUnwrap]
    cases getField fs "tree" <;> simp
  | null => rfl
  | bool b => rfl
  | num n => rfl
  | str s => rfl

theorem c7_amended_envelope_unwrap_witness :
    envelopeShapeOK (Json.obj [("tree", Json.obj [])]) = true ∧
    process_gene_tree_data (Json.obj [("tree", Json.obj [])]) =
      (refUnwrap (Json.obj [("tree", Json.obj [])])).elim [] traverseTree :=
  ⟨rfl, c7_amended_envelope_unwrap (Json.obj [("tree", Json.obj [])]) rfl⟩

/-- An oracle whose primary lookup fails (non-2xx) for `G1` and succeeds for
every other id, and whose dependent lookup always reports non-2xx. -/
def c1Oracle : Oracle :=
  { primary := fun id =>
      if id = "G1" then CallOutcome.nonSuccess
      else CallOutcome.ok (Json.obj [("display_name", Json.str "bar")]),
    dependent := fun _ _ => CallOutcome.nonSuccess }

def c1Genes : List Gene := [⟨"G1", "g1"⟩, ⟨"G2", "g2"⟩]

/-- The state `process_all_gene_trees` reaches (and saves) after a first run
of `c1Genes` against `c1Oracle`: `G1` failed, `G2` completed, position 2. -/
def c1AfterRun1 : CheckpointState :=
  { processed_genes := ["G2"], last_processed_gene := some "G2",
    current_gene_number := 2 }

/-- C1 counterexample: after a first run in which `G1` failed (primary
lookup non-2xx) and `G2` completed, the checkpoint saved holds position 2.
A second run over the same two-gene list loads it and slices
`range(current_gene_number, len, 100)` — `range(2, 2, 100)` is empty — so it
issues no remote calls at all: `G1`, which is not in `completed`, is never
iterated again, contradicting the claim that the full list is always
iterated and skipping is decided solely by `completed` membership. -/
theorem c1_restart_skips_failed_before_cursor :
    (process_all_gene_trees c1Oracle c1Genes none).map
        (fun r => (r.1, r.2.saves.getLast?)) =
      some (c1AfterRun1, some (encodeCheckpoint c1AfterRun1)) ∧
    "G1" ∉ c1AfterRun1.processed_genes ∧
    (process_all_gene_trees c1Oracle c1Genes
        (some (encodeCheckpoint c1AfterRun1))).map
        (fun r => r.2.primaryCalls) = some [] := by
  refine ⟨rfl, by decide, rfl⟩

/-- C1 amended: a run iterates only the suffix of the identifier list
starting at the loaded checkpoint's `current_gene_number` (the code slices
`range(current_gene_number, len(anole_genes), 100)`); within that suffix —
assuming distinct identifiers — the genes attempted (primary lookup issued)
are exactly those whose id is not in the loaded `completed` set, in original
order, once each. Identifiers before the cursor are never revisited, whether
they completed or not. -/
theorem c1_amended_run_attempts_suffix (o : Oracle) (genes : List Gene)
    (chk : Option Json) (st0 : CheckpointState)
    (hload : load_checkpoint chk = some st0)
    (hnodup : (genes.map Gene.gene_id).Nodup) :
    ∃ st1 log, process_all_gene_trees o genes chk = some (st1, log) ∧
      log.primaryCalls =
        ((genes.drop st0.current_gene_number).filter
          (fun g => !st0.processed_genes.contains g.gene_id)).map
          Gene.gene_id := by
  refine ⟨(runBatches o genes st0).1,
    (runBatches o genes st0).2.append
      ⟨[], [], [], [encodeCheckpoint (runBatches o genes st0).1]⟩, ?_, ?_⟩
  · unfold process_all_gene_trees
    rw [hload]
    rfl
  · rw [RunLog.append_primaryCalls, runBatches_eq]
    have hnd : ((genes.drop st0.current_gene_number).map Gene.gene_id).Nodup := by
      rw [List.map_drop]
      exact hnodup.sublist (List.drop_sublist _ _)
    rw [processBatch_primaryCalls o _ st0 hnd]
    simp

theorem c1_amended_run_attempts_suffix_witness :
    load_checkpoint none =
      some (⟨[], none, 0⟩ : CheckpointState) ∧
    (c1Genes.map Gene.gene_id).Nodup ∧
    (∃ st1 log, process_all_gene_trees c1Oracle c1Genes none = some (st1, log) ∧
      log.primaryCalls =
        ((c1Genes.drop (⟨[], none, 0⟩ : CheckpointState).current_gene_number).filter
          (fun g =>
            !(⟨[], none, 0⟩ : CheckpointState).processed_genes.contains
              g.gene_id)).map Gene.gene_id) :=
  ⟨rfl, by decide,
   c1_amended_run_attempts_suffix c1Oracle c1Genes none ⟨[], none, 0⟩ rfl
     (by decide)⟩

/-- C2 counterexample: with a single gene whose primary lookup fails, an
interruption at the boundary after that gene persists a checkpoint with
`current_gene_number = 1` although no identifier completed and no artifact
was written; the state as of the last fully completed identifier is the
initial one (position 0), and the two saved records differ. -/
theorem c2_interrupt_position_past_failure :
    runInterrupted anyOracle [⟨"G1", "g1"⟩] ⟨[], none, 0⟩ 1 =
      (⟨[], none, 1⟩, ⟨["G1"], [], [], []⟩,
       encodeCheckpoint ⟨[], none, 1⟩) ∧
    encodeCheckpoint (⟨[], none, 1⟩ : CheckpointState) ≠
      encodeCheckpoint (⟨[], none, 0⟩ : CheckpointState) := by
  constructor
  · rfl
  · intro h
    simp [encodeCheckpoint] at h

/-- C2 amended: every iterated identifier either completes — exactly one
artifact is written, its id is appended to `completed`, `last_processed_gene`
is set to it, and the one checkpoint saved is exactly the resulting state —
or it leaves `completed`, `last_processed_gene`, the artifacts and the
checkpoint file untouched; in both cases `current_gene_number` increments,
counting iterated (not completed) identifiers. An interruption between
identifiers saves exactly the current in-memory state, so its `completed`
and `last_processed_gene` are those of the last fully completed identifier,
while its position may have advanced past failed or skipped ones. -/
theorem c2_amended_step_checkpoint_dichotomy (o : Oracle)
    (st : CheckpointState) (g : Gene) :
    (processGene o st g).1.current_gene_number = st.current_gene_number + 1 ∧
    (((processGene o st g).1.processed_genes = st.processed_genes ∧
      (processGene o st g).1.last_processed_gene = st.last_processed_gene ∧
      (processGene o st g).2.artifacts = [] ∧
      (processGene o st g).2.saves = []) ∨
     (∃ a, (processGene o st g).2.artifacts = [a] ∧
       (processGene o st g).1.processed_genes =
         st.processed_genes ++ [g.gene_id] ∧
       (processGene o st g).1.last_processed_gene = some g.gene_id ∧
       (processGene o st g).2.saves =
         [encodeCheckpoint (processGene o st g).1])) ∧
    (∀ (genes : List Gene) (st0 : CheckpointState) (k : Nat),
      (runInterrupted o genes st0 k).2.2 =
        encodeCheckpoint (runInterrupted o genes st0 k).1) := by
  obtain ⟨h1, _, h3⟩ := processGene_master o st g
  refine ⟨h1, ?_, ?_⟩
  · rcases h3 with h | ⟨_, a, ha⟩
    · exact Or.inl h
    · exact Or.inr ⟨a, ha⟩
  · intro genes st0 k
    rfl

/-- An oracle whose primary lookup succeeds and whose dependent lookup
reports non-2xx for every gene. -/
def noDataOracle : Oracle :=
  { primary := fun _ => CallOutcome.ok (Json.obj [("display_name", Json.str "bar")]),
    dependent := fun _ _ => CallOutcome.nonSuccess }

/-- C5: membership hypotheses aside, a non-2xx primary response hard-fails
the identifier — the body returns with no artifact, no save, no dependent
call and an unchanged completed set, only the position counter advanced —
while a non-2xx dependent response is not an error: it routes the identifier
to the no-data outcome (marker artifact written, identifier completed, state
saved). -/
theorem c5_primary_hard_dependent_soft (o : Oracle) (st : CheckpointState)
    (g : Gene) (hskip : st.processed_genes.contains g.gene_id = false) :
    (o.primary g.gene_id = CallOutcome.nonSuccess →
      processGene o st g =
        ({ st with current_gene_number := st.current_gene_number + 1 },
         ⟨[g.gene_id], [], [], []⟩)) ∧
    (∀ info symbol, o.primary g.gene_id = CallOutcome.ok info →
      info.truthy = true →
      displaySymbolE info g.gene_symbol = Except.ok symbol →
      o.dependent g.gene_id symbol = CallOutcome.nonSuccess →
      (processGene o st g).2.artifacts =
        [Artifact.txt (symbol ++ "_gene_tree.txt")] ∧
      (processGene o st g).1.processed_genes =
        st.processed_genes ++ [g.gene_id] ∧
      (processGene o st g).1.last_processed_gene = some g.gene_id ∧
      (processGene o st g).2.saves =
        [encodeCheckpoint (processGene o st g).1]) := by
  have hnm : g.gene_id ∉ st.processed_genes := by simpa using hskip
  constructor
  · intro hp
    simp [processGene, processGeneBody, hnm, hp]
  · intro info symbol hp ht hsym hdep
    refine ⟨?_, ?_, ?_, ?_⟩ <;>
      simp [processGene, processGeneBody, hnm, hp, ht, hsym, hdep,
        completeNoData, completeState, addProcessed_of_not_contains hskip]

theorem c5_primary_hard_dependent_soft_witness :
    ((⟨[], none, 0⟩ : CheckpointState).processed_genes.contains "G2"
        = false) ∧
    ((noDataOracle.primary "G2" = CallOutcome.nonSuccess →
      processGene noDataOracle ⟨[], none, 0⟩ ⟨"G2", "g2"⟩ =
        (⟨[], none, 1⟩, ⟨["G2"], [], [], []⟩)) ∧
    (∀ info symbol, noDataOracle.primary "G2" = CallOutcome.ok info →
      info.truthy = true →
      displaySymbolE info "g2" = Except.ok symbol →
      noDataOracle.dependent "G2" symbol = CallOutcome.nonSuccess →
      (processGene noDataOracle ⟨[], none, 0⟩ ⟨"G2", "g2"⟩).2.artifacts =
        [Artifact.txt (symbol ++ "_gene_tree.txt")] ∧
      (processGene noDataOracle ⟨[], none, 0⟩ ⟨"G2", "g2"⟩).1.processed_genes =
        (⟨[], none, 0⟩ : CheckpointState).processed_genes ++ ["G2"] ∧
      (processGene noDataOracle ⟨[], none, 0⟩ ⟨"G2", "g2"⟩).1.last_processed_gene
          = some "G2" ∧
      (processGene noDataOracle ⟨[], none, 0⟩ ⟨"G2", "g2"⟩).2.saves =
        [encodeCheckpoint
          (processGene noDataOracle ⟨[], none, 0⟩ ⟨"G2", "g2"⟩).1])) :=
  ⟨rfl, c5_primary_hard_dependent_soft noDataOracle ⟨[], none, 0⟩ ⟨"G2", "g2"⟩
    rfl⟩

/-- C4: a dependent lookup that reports non-2xx or returns an explicitly
empty (falsy) payload yields the no-data marker artifact and adds the
identifier to the completed set; a timeout or transport error on either
remote call yields no artifact, no checkpoint save, and leaves the
identifier out of the completed set (so a later run retries it). -/
theorem c4_nodata_vs_failure (o : Oracle) (st : CheckpointState) (g : Gene)
    (hskip : st.processed_genes.contains g.gene_id = false) :
    (∀ info symbol, o.primary g.gene_id = CallOutcome.ok info →
      info.truthy = true →
      displaySymbolE info g.gene_symbol = Except.ok symbol →
      ((o.dependent g.gene_id symbol = CallOutcome.nonSuccess ∨
        (∃ w, o.dependent g.gene_id symbol = CallOutcome.ok w ∧
          w.truthy = false)) →
        (processGene o st g).2.artifacts =
          [Artifact.txt (symbol ++ "_gene_tree.txt")] ∧
        g.gene_id ∈ (processGene o st g).1.processed_genes) ∧
      ((o.dependent g.gene_id symbol = CallOutcome.timeout ∨
        o.dependent g.gene_id symbol = CallOutcome.transport) →
        (processGene o st g).2.artifacts = [] ∧
        (processGene o st g).2.saves = [] ∧
        (processGene o st g).1.processed_genes = st.processed_genes ∧
        g.gene_id ∉ (processGene o st g).1.processed_genes)) ∧
    ((o.primary g.gene_id = CallOutcome.timeout ∨
      o.primary g.gene_id = CallOutcome.transport) →
      (processGene o st g).2.artifacts = [] ∧
      (processGene o st g).2.saves = [] ∧
      (processGene o st g).1.processed_genes = st.processed_genes ∧
      g.gene_id ∉ (processGene o st g).1.processed_genes) := by
  have hnm : g.gene_id ∉ st.processed_genes := by simpa using hskip
  constructor
  · intro info symbol hp ht hsym
    constructor
    · intro hdep
      rcases hdep with hdep | ⟨w, hdep, hw⟩
      · constructor <;>
          simp [processGene, processGeneBody, hnm, hp, ht, hsym, hdep,
            completeNoData, completeState, addProcessed_of_not_contains hskip]
      · constructor <;>
          simp [processGene, processGeneBody, hnm, hp, ht, hsym, hdep, hw,
            completeNoData, completeState, addProcessed_of_not_contains hskip]
    · intro hdep
      rcases hdep with hdep | hdep <;>
        (refine ⟨?_, ?_, ?_, ?_⟩ <;>
          simp [processGene, processGeneBody, hnm, hp, ht, hsym, hdep])
  · intro hp
    rcases hp with hp | hp <;>
      (refine ⟨?_, ?_, ?_, ?_⟩ <;>
        simp [processGene, processGeneBody, hnm, hp])

/-- An oracle whose primary lookup times out for `G1` and succeeds for every
other id, with non-2xx dependent lookups. -/
def c4CexOracle : Oracle :=
  { primary := fun id =>
      if id = "G1" then CallOutcome.timeout
      else CallOutcome.ok (Json.obj [("display_name", Json.str "bar")]),
    dependent := fun _ _ => CallOutcome.nonSuccess }

/-- C4 counterexample (to the retry parenthetical): `G1` times out in the
first run and is left out of `completed`, `G2` completes, and the checkpoint
saves position 2; the next run loads that position, slices an empty range and
issues no remote call — `G1` is NOT retried on the later run. -/
theorem c4_timeout_not_retried_on_restart :
    (process_all_gene_trees c4CexOracle c1Genes none).map
        (fun r => (r.1, r.2.saves.getLast?)) =
      some (c1AfterRun1, some (encodeCheckpoint c1AfterRun1)) ∧
    "G1" ∉ c1AfterRun1.processed_genes ∧
    (process_all_gene_trees c4CexOracle c1Genes
        (some (encodeCheckpoint c1AfterRun1))).map
        (fun r => r.2.primaryCalls) = some [] := by
  refine ⟨rfl, by decide, rfl⟩

/-- An oracle whose primary lookup succeeds and whose dependent lookup
returns 2xx with an explicitly empty (falsy) list payload. -/
def emptyDepOracle : Oracle :=
  { primary := fun _ => CallOutcome.ok (Json.obj [("display_name", Json.str "bar")]),
    dependent := fun _ _ => CallOutcome.ok (Json.arr []) }

theorem c4_nodata_vs_failure_witness :
    ((⟨[], none, 7⟩ : CheckpointState).processed_genes.contains "G3"
        = false) ∧
    ((∀ info symbol, emptyDepOracle.primary "G3" = CallOutcome.ok info →
      info.truthy = true →
      displaySymbolE info "g3" = Except.ok symbol →
      ((emptyDepOracle.dependent "G3" symbol = CallOutcome.nonSuccess ∨
        (∃ w, emptyDepOracle.dependent "G3" symbol = CallOutcome.ok w ∧
          w.truthy = false)) →
        (processGene emptyDepOracle ⟨[], none, 7⟩ ⟨"G3", "g3"⟩).2.artifacts =
          [Artifact.txt (symbol ++ "_gene_tree.txt")] ∧
        "G3" ∈ (processGene emptyDepOracle ⟨[], none, 7⟩
          ⟨"G3", "g3"⟩).1.processed_genes) ∧
      ((emptyDepOracle.dependent "G3" symbol = CallOutcome.timeout ∨
        emptyDepOracle.dependent "G3" symbol = CallOutcome.transport) →
        (processGene emptyDepOracle ⟨[], none, 7⟩ ⟨"G3", "g3"⟩).2.artifacts
            = [] ∧
        (processGene emptyDepOracle ⟨[], none, 7⟩ ⟨"G3", "g3"⟩).2.saves
            = [] ∧
        (processGene emptyDepOracle ⟨[], none, 7⟩
            ⟨"G3", "g3"⟩).1.processed_genes =
          (⟨[], none, 7⟩ : CheckpointState).processed_genes ∧
        "G3" ∉ (processGene emptyDepOracle ⟨[], none, 7⟩
          ⟨"G3", "g3"⟩).1.processed_genes)) ∧
    ((emptyDepOracle.primary "G3" = CallOutcome.timeout ∨
      emptyDepOracle.primary "G3" = CallOutcome.transport) →
      (processGene emptyDepOracle ⟨[], none, 7⟩ ⟨"G3", "g3"⟩).2.artifacts
          = [] ∧
      (processGene emptyDepOracle ⟨[], none, 7⟩ ⟨"G3", "g3"⟩).2.saves = [] ∧
      (processGene emptyDepOracle ⟨[], none, 7⟩
          ⟨"G3", "g3"⟩).1.processed_genes =
        (⟨[], none, 7⟩ : CheckpointState).processed_genes ∧
      "G3" ∉ (processGene emptyDepOracle ⟨[], none, 7⟩
        ⟨"G3", "g3"⟩).1.processed_genes)) :=
  ⟨rfl, c4_nodata_vs_failure emptyDepOracle ⟨[], none, 7⟩ ⟨"G3", "g3"⟩ rfl⟩

end GeneTreeFetch
